import Mathlib

/-!
Verification development for the gpyrn mean-function module (`gpyrn/meanfunc.py`).

The Python module is embedded shallowly: parameter vectors are `List ℝ`,
numpy arrays of times/values are `List ℝ`, elementwise numpy arithmetic is
`List.map`/`List.zipWith`, and the mutable object state of a mean-function
instance is the inductive tree `MF` carrying each object's own `pars` field.
Fallible operations (the `assert` statements in the source) return `Except`.
-/

/-- The convergence tolerance `criteria = 1e-10` of `Keplerian.__call__`. -/
noncomputable def criteria : ℝ := 1e-10

/-- Embedding of `MeanModel.set_parameters` acting on the receiver's parameter
vector `pars` with input stream `p`.  Source (meanfunc.py lines 43-54):
`assert len(p) >= self.pars.size` (raises when the stream is too short);
when `len(p) > self.pars.size` the first `size` values are assigned and the
popped-off remainder is returned; otherwise `self.pars = p` and the function
falls off the end, returning Python `None` (modelled as `Option.none`). -/
def set_parameters (pars p : List ℝ) : Except Unit (List ℝ × Option (List ℝ)) :=
  if p.length < pars.length then .error ()
  else if pars.length < p.length then .ok (p.take pars.length, some (p.drop pars.length))
  else .ok (p, none)

/-- Object state of a mean-function instance.  Every class in the source keeps
its own `self.pars`; `Sum`/`Product` additionally hold references to their two
children, and `MultiConstant` holds its `obsid`, `time` and precomputed `ii`
context arrays. -/
inductive MF where
  | constant (pars : List ℝ)
  | multiConstant (pars : List ℝ) (obsid : List ℤ) (time : List ℝ) (ii : List ℤ)
  | linear (pars : List ℝ)
  | parabola (pars : List ℝ)
  | cubic (pars : List ℝ)
  | sine (pars : List ℝ)
  | keplerian (pars : List ℝ)
  | sum (pars : List ℝ) (m1 m2 : MF)
  | prod (pars : List ℝ) (m1 m2 : MF)

/-- `MeanModel.get_parameters`: returns `self.pars`, the node's own stored
parameter vector (for composites this is the vector cached at construction). -/
def getPars : MF → List ℝ
  | .constant p => p
  | .multiConstant p _ _ _ => p
  | .linear p => p
  | .parabola p => p
  | .cubic p => p
  | .sine p => p
  | .keplerian p => p
  | .sum p _ _ => p
  | .prod p _ _ => p

/-- Replace a node's own `pars` field (the effect of `self.pars = ...` inside
`MeanModel.set_parameters`); children and context arrays are untouched. -/
def withPars : MF → List ℝ → MF
  | .constant _, q => .constant q
  | .multiConstant _ obsid time ii, q => .multiConstant q obsid time ii
  | .linear _, q => .linear q
  | .parabola _, q => .parabola q
  | .cubic _, q => .cubic q
  | .sine _, q => .sine q
  | .keplerian _, q => .keplerian q
  | .sum _ m1 m2, q => .sum q m1 m2
  | .prod _ m1 m2, q => .prod q m1 m2

/-- `m.set_parameters(p)` as inherited by every class from `MeanModel`: it
reads and writes only the receiver's own `pars` field. -/
def setPars (m : MF) (p : List ℝ) : Except Unit (MF × Option (List ℝ)) :=
  match set_parameters (getPars m) p with
  | .error e => .error e
  | .ok (ps, rem) => .ok (withPars m ps, rem)

/-- `Constant(c)`: stores `pars = [c]`. -/
def mkConstant (c : ℝ) : MF := .constant [c]

/-- `Linear(slope, intercept)`. -/
def mkLinear (slope intercept : ℝ) : MF := .linear [slope, intercept]

/-- `Parabola(quad, slope, intercept)`. -/
def mkParabola (quad slope intercept : ℝ) : MF := .parabola [quad, slope, intercept]

/-- `Cubic(cub, quad, slope, intercept)`. -/
def mkCubic (cub quad slope intercept : ℝ) : MF := .cubic [cub, quad, slope, intercept]

/-- `Sine(amplitude, period, phase)`. -/
def mkSine (amplitude period phase : ℝ) : MF := .sine [amplitude, period, phase]

/-- `Keplerian(P, K, e, w, phi, sys_vel)`: simply stores the six parameters;
the source constructor performs no validation of any kind. -/
def mkKeplerian (P K e w ph sv : ℝ) : MF := .keplerian [P, K, e, w, ph, sv]

/-- `Sum.__init__`: stores the two children and caches
`self.pars = np.r_[m1.pars, m2.pars]` (a fresh concatenated copy). -/
def mkSum (m1 m2 : MF) : MF := .sum (getPars m1 ++ getPars m2) m1 m2

/-- `Product.__init__`: same caching as `Sum.__init__`. -/
def mkProd (m1 m2 : MF) : MF := .prod (getPars m1 ++ getPars m2) m1 m2

/-- `MeanModel.__add__`: `a + b` builds `Sum(a, b)`. -/
def add (a b : MF) : MF := mkSum a b

/-- `MeanModel.__mul__`: `a * b` builds `Product(a, b)`. -/
def mul (a b : MF) : MF := mkProd a b

/-- Well-formedness of the context arrays of `MultiConstant` nodes: `ii` (one
instrument index per stored observation) has the same length as `time`, as the
constructor docstring requires of `obsid` and `time`.  numpy would raise a
broadcast error otherwise; list truncation in the embedding is guarded by
this predicate instead. -/
def WF : MF → Prop
  | .multiConstant _ _ time ii => ii.length = time.length
  | .sum _ m1 m2 => WF m1 ∧ WF m2
  | .prod _ m1 m2 => WF m1 ∧ WF m2
  | _ => True

/-- `np.mean` of a vector (used by `Linear.__call__` for `t.mean()`). -/
noncomputable def npMean (t : List ℝ) : ℝ := t.sum / t.length

/-- `np.polyval(pars, x)`: Horner evaluation, highest-degree coefficient
first. -/
def polyval (pars : List ℝ) (x : ℝ) : ℝ := pars.foldl (fun acc c => acc * x + c) 0

/-- First differences `l[1:] - l[:-1]` (the core of `np.ediff1d`). -/
def diffs (l : List ℤ) : List ℤ := List.zipWith (· - ·) l.tail l

/-- Boolean-mask selection `vals[mask != 0]` where the mask is an integer
vector of the same length. -/
def maskSelect (vals : List ℝ) (mask : List ℤ) : List ℝ :=
  (vals.zip mask).filterMap fun q => if q.2 ≠ 0 then some q.1 else none

/-- Insertion step for `npSort`. -/
noncomputable def insertSorted (x : ℝ) : List ℝ → List ℝ
  | [] => [x]
  | y :: ys => if x ≤ y then x :: y :: ys else y :: insertSorted x ys

/-- `np.sort`: ascending sort (insertion sort in the embedding). -/
noncomputable def npSort (l : List ℝ) : List ℝ := l.foldr insertSorted []

/-- `MultiConstant.time_bins`: `_1` are end-of-block times
(`np.ediff1d(obsid, 0, None) != 0`), `_2` are start-of-block times
(`np.ediff1d(obsid, None, 0) != 0`), bins are the sorted list of `time[0]`
and the pairwise midpoints. -/
noncomputable def time_bins (obsid : List ℤ) (time : List ℝ) : List ℝ :=
  let l1 := maskSelect time (diffs obsid ++ [0])
  let l2 := maskSelect time (0 :: diffs obsid)
  let mids := List.zipWith (fun a b => (a + b) / 2) l1 l2
  npSort (time.headI :: mids)

/-- `np.digitize(x, bins)` with the default `right=False` on an increasing
`bins`: the number of bin edges `≤ x`. -/
noncomputable def digitize (x : ℝ) (bins : List ℝ) : ℕ :=
  bins.countP fun b => decide (b ≤ x)

/-- `np.take(l, k)` for a single integer index: negative indices wrap from the
end (this happens in `MultiConstant.__call__` for query times before the first
bin edge, where `np.digitize` returns 0 and the code subtracts 1).  Indices
out of range raise in numpy; the embedding returns 0 there, and no theorem
exercises that case. -/
noncomputable def npTake (l : List ℝ) (k : ℤ) : ℝ :=
  if 0 ≤ k then l.getD k.toNat 0 else l.getD (l.length - (-k).toNat) 0

/-- `MultiConstant.__call__`: `offsets = pars[:-1]` padded with a trailing 0,
`c = pars[-1]`; if `t` has the stored size the precomputed `ii` is reused,
otherwise indices come from `np.digitize` against `time_bins()` minus 1;
result is `np.full_like(t, c) + np.take(offsets, ii)`. -/
noncomputable def mcCall (pars : List ℝ) (obsid : List ℤ) (time : List ℝ) (ii : List ℤ)
    (t : List ℝ) : List ℝ :=
  let offsets := pars.dropLast ++ [0]
  let c := pars.getD (pars.length - 1) 0
  let idx := if t.length = time.length then ii
             else t.map fun x => (digitize x (time_bins obsid time) : ℤ) - 1
  List.zipWith (fun _ k => c + npTake offsets k) t idx

/-- `MultiConstant.__init__`: derives `_parsize` as the number of unit steps in
`obsid` plus one, precomputes `ii = obsid - 1`, and asserts
`len(offsets) == _parsize` before storing the parameters. -/
def mkMultiConstant (offsets : List ℝ) (obsid : List ℤ) (time : List ℝ) : Except Unit MF :=
  let parsize := (diffs obsid).countP (fun d => decide (d = 1)) + 1
  let ii := obsid.map (· - 1)
  if offsets.length = parsize then .ok (.multiConstant offsets obsid time ii) else .error ()

/-- Loop state of the eccentric-anomaly solver in `Keplerian.__call__`:
the arrays `E0`, `M0`, `M1`, the unconverged count `nd` and the iteration
counter `count`. -/
structure KSt where
  E0 : List ℝ
  M0 : List ℝ
  M1 : List ℝ
  nd : ℕ
  count : ℕ

/-- The residual array `E0 - e*np.sin(E0) - M0`. -/
noncomputable def resid (e : ℝ) (E M : List ℝ) : List ℝ :=
  List.zipWith (fun a b => a - e * Real.sin a - b) E M

/-- `nd = len(np.where(np.abs(M1) > criteria)[0])`: the number of elements
whose residual exceeds the tolerance. -/
noncomputable def unconv (M1 : List ℝ) : ℕ :=
  M1.countP fun x => decide (criteria < |x|)

/-- Python semantics of `np.sum(convergence_criteria is True)` at line 285 of
meanfunc.py: `convergence_criteria` is a numpy ndarray object, and the `is`
identity test of an ndarray against the interned singleton `True` is `False`
whatever the array holds, so `np.sum` receives the scalar `False` and yields
0. -/
def npSumIsTrue (_cc : List Bool) : ℕ := 0

/-- One elementwise Newton-Halley correction (body of the while loop, acting
on one vector element): `M1p = 1 - e*cos(E)`, `M1pp = e*sin(E)`,
`M1ppp = 1 - M1p`, corrections `d1`, `d2`, `d3`, update `E + d3`. -/
noncomputable def halleyE (e E M1 : ℝ) : ℝ :=
  let M1p := 1 - e * Real.cos E
  let M1pp := e * Real.sin E
  let M1ppp := 1 - M1p
  let d1 := -M1 / M1p
  let d2 := -M1 / (M1p + d1 * M1pp / 2)
  let d3 := -M1 / (M1p + d2 * M1pp / 2 + d2 * d2 * M1ppp / 6)
  E + d3

/-- One pass of the while loop: apply the correction to every element, then
reassign `M0 = E0 - e*np.sin(E0)` (the source overwrites the original mean
anomaly here), recompute `M1` against the reassigned `M0`, and recompute `nd`
as `np.sum(convergence_criteria is True)`. -/
noncomputable def stepBody (e : ℝ) (s : KSt) : KSt :=
  let Enew := List.zipWith (fun E M1 => halleyE e E M1) s.E0 s.M1
  let M0new := Enew.map fun x => x - e * Real.sin x
  let M1new := resid e Enew M0new
  let cc := M1new.map fun x => decide (criteria < |x|)
  ⟨Enew, M0new, M1new, npSumIsTrue cc, s.count + 1⟩

/-- Fuel-indexed semantics of `while nd > 0: ...`; `none` means the fuel ran
out with the loop condition still true. -/
noncomputable def runWhile (e : ℝ) : ℕ → KSt → Option KSt
  | 0, s => if s.nd = 0 then some s else none
  | n + 1, s => if s.nd = 0 then some s else runWhile e n (stepBody e s)

/-- Initial solver state: `M0` is the mean-anomaly array, `E0` the
second-order series guess `M0 + e*sin(M0) + 0.5*e^2*sin(2*M0)`, `M1` the
initial residual, `nd` the initial unconverged count, `count = 0`. -/
noncomputable def initState (e : ℝ) (M : List ℝ) : KSt :=
  let E0 := M.map fun m => m + e * Real.sin m + 0.5 * e ^ 2 * Real.sin (2 * m)
  let M1 := resid e E0 M
  ⟨E0, M, M1, unconv M1, 0⟩

/-- The solver state on exit from the while loop.  Fuel 2 always suffices
(proved below: one pass drives `nd` to 0); the `getD` fallback is never
taken. -/
noncomputable def keplerState (e : ℝ) (M : List ℝ) : KSt :=
  (runWhile e 2 (initState e M)).getD (initState e M)

/-- The eccentric-anomaly array `E0` on exit from the loop. -/
noncomputable def solveE (e : ℝ) (M : List ℝ) : List ℝ := (keplerState e M).E0

/-- Step 2 of `Keplerian.__call__`: `T0 = t[0] - P*phi/(2*pi)` and the mean
anomaly `M0 = 2*pi*(t - T0)/P`.  (`t[0]` is `t.headI`; the source raises an
IndexError on an empty time array, a case no theorem relies on.) -/
noncomputable def meanAnoms (P ph : ℝ) (t : List ℝ) : List ℝ :=
  let T0 := t.headI - P * ph / (2 * Real.pi)
  t.map fun x => 2 * Real.pi * (x - T0) / P

/-- The residual of the exited solver measured against the ORIGINAL mean
anomaly `M`, elementwise `E - e*sin(E) - M`. -/
noncomputable def kepResiduals (e : ℝ) (M : List ℝ) : List ℝ :=
  resid e (solveE e M) M

/-- `Keplerian.__call__`: unpack the six parameters, solve for the eccentric
anomaly, then `nu = 2*arctan(sqrt((1+e)/(1-e))*tan(E0/2))` and
`RV = K*(e*cos(w) + cos(w+nu)) + sys_vel`. -/
noncomputable def keplerCall (pars : List ℝ) (t : List ℝ) : List ℝ :=
  let P := pars.getD 0 0
  let K := pars.getD 1 0
  let e := pars.getD 2 0
  let w := pars.getD 3 0
  let ph := pars.getD 4 0
  let sv := pars.getD 5 0
  let E := solveE e (meanAnoms P ph t)
  E.map fun x =>
    K * (e * Real.cos w +
      Real.cos (w + 2 * Real.arctan (Real.sqrt ((1 + e) / (1 - e)) * Real.tan (x / 2)))) + sv

/-- `__call__` of every mean-function class (each is wrapped by `array_input`,
so the input is always an array, here a `List ℝ`).  `Sum`/`Product` evaluate
their children and combine elementwise; every leaf reads its own stored
`pars`. -/
noncomputable def evaluate : MF → List ℝ → List ℝ
  | .constant pars, t => t.map fun _ => pars.getD 0 0
  | .multiConstant pars obsid time ii, t => mcCall pars obsid time ii t
  | .linear pars, t => t.map fun x => pars.getD 0 0 * (x - npMean t) + pars.getD 1 0
  | .parabola pars, t => t.map (polyval pars)
  | .cubic pars, t => t.map (polyval pars)
  | .sine pars, t =>
      t.map fun x => pars.getD 0 0 * Real.sin (2 * Real.pi * x / pars.getD 1 0 + pars.getD 2 0)
  | .keplerian pars, t => keplerCall pars t
  | .sum _ m1 m2, t => List.zipWith (· + ·) (evaluate m1 t) (evaluate m2 t)
  | .prod _ m1 m2, t => List.zipWith (· * ·) (evaluate m1 t) (evaluate m2 t)

/-! ## Generic lemmas about elementwise access and result lengths -/

/-- `getD` through `zipWith` at an in-range index. -/
theorem zipWith_getD (f : ℝ → ℝ → ℝ) (xs ys : List ℝ) (i : ℕ)
    (hx : i < xs.length) (hy : i < ys.length) :
    (List.zipWith f xs ys).getD i 0 = f (xs.getD i 0) (ys.getD i 0) := by
  have hz : i < (List.zipWith f xs ys).length := by
    simp only [List.length_zipWith, lt_min_iff]; exact ⟨hx, hy⟩
  rw [List.getD_eq_getElem _ _ hz, List.getD_eq_getElem _ _ hx,
    List.getD_eq_getElem _ _ hy, List.getElem_zipWith]

/-- `getD` through `map` at an in-range index. -/
theorem map_getD (f : ℝ → ℝ) (xs : List ℝ) (i : ℕ) (hx : i < xs.length) :
    (xs.map f).getD i 0 = f (xs.getD i 0) := by
  have hz : i < (xs.map f).length := by simpa using hx
  rw [List.getD_eq_getElem _ _ hz, List.getD_eq_getElem _ _ hx, List.getElem_map]

/-- After one pass of the loop body the recomputed unconverged count is 0:
`np.sum(convergence_criteria is True)` is `np.sum(False)`. -/
theorem stepBody_nd (e : ℝ) (s : KSt) : (stepBody e s).nd = 0 := rfl

/-- One pass of the body increments the iteration counter by one. -/
theorem stepBody_count (e : ℝ) (s : KSt) : (stepBody e s).count = s.count + 1 := rfl

/-- Fuel 2 always completes the while loop: either the initial state is
already converged, or one pass of the body drives `nd` to 0. -/
theorem runWhile_two (e : ℝ) (s : KSt) :
    runWhile e 2 s = some (if s.nd = 0 then s else stepBody e s) := by
  by_cases h : s.nd = 0
  · simp [runWhile, h]
  · simp [runWhile, h, stepBody_nd]

/-- Closed form of the exited solver state. -/
theorem keplerState_eq (e : ℝ) (M : List ℝ) :
    keplerState e M = if (initState e M).nd = 0 then initState e M
                      else stepBody e (initState e M) := by
  rw [keplerState, runWhile_two, Option.getD_some]

/-- The solved eccentric-anomaly array has one entry per mean anomaly. -/
theorem solveE_length (e : ℝ) (M : List ℝ) : (solveE e M).length = M.length := by
  rw [solveE, keplerState_eq]
  split
  · simp [initState, resid]
  · simp [stepBody, initState, resid, List.length_zipWith]

/-- Every mean-function evaluation returns one value per input time. -/
theorem evaluate_length (m : MF) (h : WF m) (t : List ℝ) :
    (evaluate m t).length = t.length := by
  induction m with
  | constant p => simp [evaluate]
  | multiConstant p obsid time ii =>
    simp only [WF] at h
    by_cases hc : t.length = time.length <;>
      simp [evaluate, mcCall, hc, h, List.length_zipWith]
  | linear p => simp [evaluate]
  | parabola p => simp [evaluate]
  | cubic p => simp [evaluate]
  | sine p => simp [evaluate]
  | keplerian p => simp [evaluate, keplerCall, solveE_length, meanAnoms]
  | sum p m1 m2 ih1 ih2 =>
    obtain ⟨h1, h2⟩ := h
    simp [evaluate, List.length_zipWith, ih1 h1, ih2 h2]
  | prod p m1 m2 ih1 ih2 =>
    obtain ⟨h1, h2⟩ := h
    simp [evaluate, List.length_zipWith, ih1 h1, ih2 h2]

/-! ## Claims about the parameter protocol and composition -/

/-- C1.  `set_parameters` on a `Sum` composite does NOT distribute the stream
to the children: the inherited `MeanModel.set_parameters` assigns the stream
to the composite's own cached `pars` vector, the children keep their previous
parameter vectors ([1] and [2] here, not [5] and [6]), and evaluation — which
reads the children — still returns 1 + 2 = 3 after the call. -/
theorem sum_set_parameters_ignores_children :
    setPars (mkSum (mkConstant 1) (mkConstant 2)) [5, 6] =
      Except.ok (MF.sum [5, 6] (MF.constant [1]) (MF.constant [2]), none) ∧
    getPars (MF.constant [1]) = [1] ∧ ([1] : List ℝ) ≠ [5] ∧
    evaluate (MF.sum [5, 6] (MF.constant [1]) (MF.constant [2])) [0] = [3] := by
  refine ⟨rfl, rfl, by norm_num, ?_⟩
  norm_num [evaluate]

/-- C2.  `get_parameters` on a `Sum` composite returns the concatenation
cached at construction time, not a read-through view: after the aliased first
child (the very object stored in the composite) has its parameters set to
[7], the composite still reports [1, 2] while the children now hold [7] and
[2]. -/
theorem sum_get_parameters_stale_after_child_update :
    mkSum (mkConstant 1) (mkConstant 2) =
      MF.sum [1, 2] (MF.constant [1]) (MF.constant [2]) ∧
    setPars (MF.constant [1]) [7] = Except.ok (MF.constant [7], none) ∧
    getPars (MF.sum [1, 2] (MF.constant [7]) (MF.constant [2])) = [1, 2] ∧
    getPars (MF.constant [7]) ++ getPars (MF.constant [2]) = [7, 2] ∧
    ([1, 2] : List ℝ) ≠ [7, 2] := by
  refine ⟨rfl, rfl, rfl, rfl, by norm_num⟩

/-- C3 counterexample.  On a stream of exactly `parameter_count` values,
`set_parameters` assigns the stream but returns Python `None` (no value),
not an empty remainder sequence. -/
theorem set_parameters_exact_returns_none :
    set_parameters [0] [5] = Except.ok ([5], none) ∧
    (Except.ok (([5] : List ℝ), (none : Option (List ℝ))) : Except Unit (List ℝ × Option (List ℝ))) ≠
      Except.ok ([5], some []) := by
  exact ⟨rfl, by simp⟩

/-- C3 amended.  For a stream at least `parameter_count` long,
`set_parameters` assigns the first `parameter_count` values in order; on a
strictly longer stream it returns the excess sub-sequence in order (prefix
and returned remainder reassemble the stream), and on an exact-length stream
it returns `None` rather than an empty remainder. -/
theorem set_parameters_consumes_stream (pars p : List ℝ) (h : pars.length ≤ p.length) :
    set_parameters pars p =
      Except.ok (p.take pars.length,
        if pars.length < p.length then some (p.drop pars.length) else none) ∧
    (p.take pars.length).length = pars.length ∧
    p.take pars.length ++ p.drop pars.length = p := by
  refine ⟨?_, by simp [List.length_take, Nat.min_eq_left h], List.take_append_drop _ _⟩
  by_cases hlt : pars.length < p.length
  · simp [set_parameters, hlt, Nat.not_lt.mpr h]
  · have he : p.length = pars.length := le_antisymm (Nat.not_lt.mp hlt) h
    simp [set_parameters, hlt, Nat.not_lt.mpr h, he, List.take_of_length_le (le_of_eq he)]

/-- Witness for C3 amended at `pars = [0, 0]`, `p = [1, 2, 3]`. -/
theorem set_parameters_consumes_stream_witness :
    ([0, 0] : List ℝ).length ≤ ([1, 2, 3] : List ℝ).length ∧
    (set_parameters [0, 0] [1, 2, 3] =
      Except.ok (([1, 2, 3] : List ℝ).take ([0, 0] : List ℝ).length,
        if ([0, 0] : List ℝ).length < ([1, 2, 3] : List ℝ).length then
          some (([1, 2, 3] : List ℝ).drop ([0, 0] : List ℝ).length)
        else none) ∧
    (([1, 2, 3] : List ℝ).take ([0, 0] : List ℝ).length).length = ([0, 0] : List ℝ).length ∧
    ([1, 2, 3] : List ℝ).take ([0, 0] : List ℝ).length ++
      ([1, 2, 3] : List ℝ).drop ([0, 0] : List ℝ).length = [1, 2, 3]) :=
  ⟨by simp, set_parameters_consumes_stream [0, 0] [1, 2, 3] (by simp)⟩

/-- C7.  A stream shorter than the stored parameter vector makes
`set_parameters` fail immediately (the `assert` fires before any assignment,
so the error result carries no updated parameters), and a `MultiConstant`
constructed with an offsets list whose length differs from the count derived
from `obsid` fails the same way before the parameters are stored. -/
theorem too_few_parameters_error :
    (∀ pars p : List ℝ, p.length < pars.length → set_parameters pars p = Except.error ()) ∧
    (∀ m : MF, ∀ p : List ℝ, p.length < (getPars m).length →
      setPars m p = Except.error ()) ∧
    (∀ (offsets : List ℝ) (obsid : List ℤ) (time : List ℝ),
      offsets.length ≠ (diffs obsid).countP (fun d => decide (d = 1)) + 1 →
      mkMultiConstant offsets obsid time = Except.error ()) := by
  refine ⟨fun pars p h => by simp [set_parameters, h], ?_, ?_⟩
  · intro m p h
    simp [setPars, set_parameters, h]
  · intro offsets obsid time h
    simp [mkMultiConstant, h]

/-- Witness for C7: a 1-element stream against a 2-parameter model, and a
3-offset list against an `obsid` that derives 2 parameters. -/
theorem too_few_parameters_error_witness :
    ([9] : List ℝ).length < ([0, 0] : List ℝ).length ∧
    set_parameters [0, 0] [9] = Except.error () ∧
    ([9] : List ℝ).length < (getPars (mkLinear 1 2)).length ∧
    setPars (mkLinear 1 2) [9] = Except.error () ∧
    ([4, 5, 6] : List ℝ).length ≠ (diffs [1, 1, 2, 2]).countP (fun d => decide (d = 1)) + 1 ∧
    mkMultiConstant [4, 5, 6] [1, 1, 2, 2] [0, 1, 2, 3] = Except.error () := by
  refine ⟨by simp, too_few_parameters_error.1 [0, 0] [9] (by simp), by simp [mkLinear, getPars],
    too_few_parameters_error.2.1 (mkLinear 1 2) [9] (by simp [mkLinear, getPars]),
    by simp [diffs], too_few_parameters_error.2.2 [4, 5, 6] [1, 1, 2, 2] [0, 1, 2, 3]
      (by simp [diffs])⟩

/-- C8.  `a + b` builds a `Sum` node and `a * b` a `Product` node, for any two
mean-function instances (any leaf types, Keplerian included); their
evaluation at every time index is the elementwise sum (respectively product)
of the children's evaluations. -/
theorem sum_product_evaluate_elementwise (a b : MF) (ha : WF a) (hb : WF b)
    (t : List ℝ) (i : ℕ) (hi : i < t.length) :
    add a b = MF.sum (getPars a ++ getPars b) a b ∧
    mul a b = MF.prod (getPars a ++ getPars b) a b ∧
    (evaluate (add a b) t).getD i 0 = (evaluate a t).getD i 0 + (evaluate b t).getD i 0 ∧
    (evaluate (mul a b) t).getD i 0 = (evaluate a t).getD i 0 * (evaluate b t).getD i 0 := by
  have hA : i < (evaluate a t).length := by rw [evaluate_length a ha]; exact hi
  have hB : i < (evaluate b t).length := by rw [evaluate_length b hb]; exact hi
  refine ⟨rfl, rfl, ?_, ?_⟩
  · show (List.zipWith (· + ·) (evaluate a t) (evaluate b t)).getD i 0 = _
    exact zipWith_getD _ _ _ _ hA hB
  · show (List.zipWith (· * ·) (evaluate a t) (evaluate b t)).getD i 0 = _
    exact zipWith_getD _ _ _ _ hA hB

/-- Witness for C8 with a `Constant` and a `Keplerian` operand at `t = [0]`. -/
theorem sum_product_evaluate_elementwise_witness :
    WF (mkConstant 3) ∧ WF (mkKeplerian 1 1 0 0 0 0) ∧ (0 < ([0] : List ℝ).length) ∧
    ((evaluate (add (mkConstant 3) (mkKeplerian 1 1 0 0 0 0)) [0]).getD 0 0 =
      (evaluate (mkConstant 3) [0]).getD 0 0 +
        (evaluate (mkKeplerian 1 1 0 0 0 0) [0]).getD 0 0) ∧
    ((evaluate (mul (mkConstant 3) (mkKeplerian 1 1 0 0 0 0)) [0]).getD 0 0 =
      (evaluate (mkConstant 3) [0]).getD 0 0 *
        (evaluate (mkKeplerian 1 1 0 0 0 0) [0]).getD 0 0) := by
  have h := sum_product_evaluate_elementwise (mkConstant 3) (mkKeplerian 1 1 0 0 0 0)
    (by simp [mkConstant, WF]) (by simp [mkKeplerian, WF]) [0] 0 (by simp)
  exact ⟨by simp [mkConstant, WF], by simp [mkKeplerian, WF], by simp, h.2.2.1, h.2.2.2⟩

/-- C10.  A two-instrument `MultiConstant` with `obsid = [1,1,2,2]` and
offsets `[off1, mean]`, evaluated on its stored training times, returns
`mean + off1` on the instrument-1 rows and `mean` on the instrument-2 rows:
the trailing instrument gets the padded zero offset and the absolute level
`pars[-1]` is added everywhere. -/
theorem multiconstant_two_instruments_training_eval (off1 mean t1 t2 t3 t4 : ℝ) :
    mkMultiConstant [off1, mean] [1, 1, 2, 2] [t1, t2, t3, t4] =
      Except.ok (MF.multiConstant [off1, mean] [1, 1, 2, 2] [t1, t2, t3, t4] [0, 0, 1, 1]) ∧
    evaluate (MF.multiConstant [off1, mean] [1, 1, 2, 2] [t1, t2, t3, t4] [0, 0, 1, 1])
        [t1, t2, t3, t4] = [mean + off1, mean + off1, mean, mean] := by
  constructor
  · simp [mkMultiConstant, diffs]
  · simp [evaluate, mcCall, npTake]

/-! ## The Keplerian solver -/

/-- With `e = 0` the series guess is the mean anomaly itself. -/
theorem initE_zero (M : List ℝ) : (initState 0 M).E0 = M := by
  simp [initState]

/-- With `e = 0` the initial residual array is identically zero. -/
theorem initState_zero_M1 (M : List ℝ) : (initState 0 M).M1 = M.map (fun _ => 0) := by
  show resid 0 ((initState 0 M).E0) M = _
  rw [initE_zero]
  simp [resid, List.zipWith_same]

/-- An all-zero residual array has no unconverged elements. -/
theorem unconv_zeros (M : List ℝ) : unconv (M.map fun _ => 0) = 0 := by
  simp only [unconv, List.countP_eq_zero]
  intro a ha
  simp only [List.mem_map] at ha
  obtain ⟨x, _, rfl⟩ := ha
  norm_num [criteria]

/-- With `e = 0` the loop is never entered and the solver returns the mean
anomaly unchanged: `E = M` exactly. -/
theorem solveE_zero (M : List ℝ) : solveE 0 M = M := by
  rw [solveE, keplerState_eq]
  have h : (initState 0 M).nd = 0 := by
    show unconv ((initState 0 M).M1) = 0
    rw [initState_zero_M1]; exact unconv_zeros M
  rw [if_pos h]; exact initE_zero M

/-- Where `cos x ≠ 0`, `arctan (tan x)` is `x` shifted into the principal
branch by an integer multiple of `π`. -/
theorem arctan_tan_sub_round (x : ℝ) (hx : Real.cos x ≠ 0) :
    Real.arctan (Real.tan x) = x - round (x / Real.pi) * Real.pi := by
  set k : ℤ := round (x / Real.pi) with hk
  have hpi := Real.pi_pos
  have h1 : |x / Real.pi - k| ≤ 1 / 2 := abs_sub_round (x / Real.pi)
  have h2 : |x - k * Real.pi| ≤ Real.pi / 2 := by
    have hrw : x - k * Real.pi = (x / Real.pi - k) * Real.pi := by
      field_simp
      ring
    rw [hrw, abs_mul, abs_of_pos hpi]
    calc |x / Real.pi - k| * Real.pi ≤ 1 / 2 * Real.pi :=
          mul_le_mul_of_nonneg_right h1 hpi.le
      _ = Real.pi / 2 := by ring
  have hcosy : Real.cos (x - k * Real.pi) ≠ 0 := by
    rw [Real.cos_sub, Real.sin_int_mul_pi]
    simp only [mul_zero, add_zero]
    refine mul_ne_zero hx ?_
    have hs := Real.sin_sq_add_cos_sq ((k : ℝ) * Real.pi)
    rw [Real.sin_int_mul_pi] at hs
    intro h0
    rw [h0] at hs
    norm_num at hs
  have hne1 : x - k * Real.pi ≠ Real.pi / 2 := by
    intro h; exact hcosy (by rw [h, Real.cos_pi_div_two])
  have hne2 : x - k * Real.pi ≠ -(Real.pi / 2) := by
    intro h; exact hcosy (by rw [h]; simp)
  have h3 : -(Real.pi / 2) < x - k * Real.pi :=
    lt_of_le_of_ne (abs_le.mp h2).1 (Ne.symm hne2)
  have h4 : x - k * Real.pi < Real.pi / 2 := lt_of_le_of_ne (abs_le.mp h2).2 hne1
  have h5 : Real.tan (x - k * Real.pi) = Real.tan x := Real.tan_periodic.sub_int_mul_eq k
  rw [← h5, Real.arctan_tan h3 h4]

/-- The branch shift of the previous lemma vanishes under cosine of the
doubled angle (it contributes a multiple of `2π`). -/
theorem cos_add_two_arctan_tan (w x : ℝ) (hx : Real.cos x ≠ 0) :
    Real.cos (w + 2 * Real.arctan (Real.tan x)) = Real.cos (w + 2 * x) := by
  rw [arctan_tan_sub_round x hx]
  have h : w + 2 * (x - round (x / Real.pi) * Real.pi) =
      w + 2 * x - (round (x / Real.pi) : ℤ) * (2 * Real.pi) := by ring
  rw [h, Real.cos_sub_int_mul_two_pi]

/-- C9 amended.  For a circular orbit (`e = 0`) the radial velocity at every
time index whose mean anomaly avoids the `tan` pole (`cos(M/2) ≠ 0`) is
`K·cos(w + M) + sys_vel` — the `e·cos(w)` term of the general formula
vanishes at `e = 0`, so no standalone `K·cos(w)` summand remains. -/
theorem keplerian_circular_reduces_to_cosine (P K w ph sv : ℝ) (t : List ℝ) (i : ℕ)
    (hi : i < t.length) (hcos : Real.cos ((meanAnoms P ph t).getD i 0 / 2) ≠ 0) :
    (evaluate (mkKeplerian P K 0 w ph sv) t).getD i 0 =
      K * Real.cos (w + (meanAnoms P ph t).getD i 0) + sv := by
  have hlen : i < (meanAnoms P ph t).length := by simpa [meanAnoms] using hi
  have hstep : evaluate (mkKeplerian P K 0 w ph sv) t =
      (meanAnoms P ph t).map (fun x =>
        K * (0 * Real.cos w + Real.cos (w + 2 * Real.arctan (Real.tan (x / 2)))) + sv) := by
    simp only [evaluate, mkKeplerian, keplerCall, List.getD_cons_zero, List.getD_cons_succ,
      solveE_zero]
    norm_num
  rw [hstep, map_getD _ _ _ hlen, cos_add_two_arctan_tan w _ hcos]
  have h2 : 2 * ((meanAnoms P ph t).getD i 0 / 2) = (meanAnoms P ph t).getD i 0 := by ring
  rw [h2]
  ring

/-- With orbital phase 0 and a single time, the mean anomaly is 0 for any
period. -/
theorem meanAnoms_zero_ph (P : ℝ) : meanAnoms P 0 [0] = [0] := by
  simp [meanAnoms]

/-- Concrete circular evaluation: `Keplerian(P, 1, 0, 0, 0, 0)` at `t = [0]`
returns `[1]` (namely `cos 0`), for any period `P`, valid or not. -/
theorem kepler_eval_circular_zero (P : ℝ) :
    evaluate (mkKeplerian P 1 0 0 0 0) [0] = [1] := by
  simp only [evaluate, mkKeplerian, keplerCall, List.getD_cons_zero, List.getD_cons_succ]
  rw [meanAnoms_zero_ph, solveE_zero]
  norm_num [Real.sqrt_one, Real.tan_zero, Real.arctan_zero, Real.cos_zero]

/-- C9 counterexample.  At `e = 0`, `K = 1`, `w = 0`, `phi = 0`,
`sys_vel = 0`, `t = [0]` (so `M = 0`), the code returns 1, but the claimed
formula `K*(cos(w) + cos(w + M)) + sys_vel` gives 2: the claim wrongly keeps
a `K·cos(w)` term that the implemented `K·e·cos(w)` kills at `e = 0`. -/
theorem keplerian_circular_claim_false_at_zero :
    evaluate (mkKeplerian 1 1 0 0 0 0) [0] = [1] ∧
    (1 : ℝ) * (Real.cos 0 + Real.cos (0 + (meanAnoms 1 0 [0]).getD 0 0)) + 0 = 2 ∧
    ([1] : List ℝ) ≠ [2] := by
  refine ⟨kepler_eval_circular_zero 1, ?_, by norm_num⟩
  rw [meanAnoms_zero_ph]
  norm_num

/-- C6 counterexample.  A Keplerian with period `P = -1 ≤ 0` is constructed
without complaint and its evaluation completes, producing the computed
radial-velocity value `[1]`: no `InvalidParameterError` exists anywhere in
the code path. -/
theorem keplerian_invalid_period_still_computes :
    (-1 : ℝ) ≤ 0 ∧ evaluate (mkKeplerian (-1) 1 0 0 0 0) [0] = [1] :=
  ⟨by norm_num, kepler_eval_circular_zero (-1)⟩

/-- C6 amended.  No validation is performed: for every parameter assignment
with `e ≥ 1` or `P ≤ 0` the constructor still just stores the six values and
evaluation still returns a full-length computed result. -/
theorem keplerian_no_validation (P K e w ph sv : ℝ) (t : List ℝ)
    (_h : 1 ≤ e ∨ P ≤ 0) :
    mkKeplerian P K e w ph sv = MF.keplerian [P, K, e, w, ph, sv] ∧
    (evaluate (mkKeplerian P K e w ph sv) t).length = t.length :=
  ⟨rfl, evaluate_length _ (by simp [mkKeplerian, WF]) t⟩

/-- Witness for C6 amended at `P = -1`. -/
theorem keplerian_no_validation_witness :
    ((1 : ℝ) ≤ 0 ∨ (-1 : ℝ) ≤ 0) ∧
    mkKeplerian (-1) 1 0 0 0 0 = MF.keplerian [-1, 1, 0, 0, 0, 0] ∧
    (evaluate (mkKeplerian (-1) 1 0 0 0 0) [0]).length = ([0] : List ℝ).length :=
  ⟨Or.inr (by norm_num),
    keplerian_no_validation (-1) 1 0 0 0 0 [0] (Or.inr (by norm_num))⟩

/-- Witness for C9 amended at `M = 0`. -/
theorem keplerian_circular_reduces_to_cosine_witness :
    (0 < ([0] : List ℝ).length) ∧
    Real.cos ((meanAnoms 1 0 [0]).getD 0 0 / 2) ≠ 0 ∧
    (evaluate (mkKeplerian 1 1 0 0 0 0) [0]).getD 0 0 =
      1 * Real.cos (0 + (meanAnoms 1 0 [0]).getD 0 0) + 0 := by
  have hc : Real.cos ((meanAnoms 1 0 [0]).getD 0 0 / 2) ≠ 0 := by
    rw [meanAnoms_zero_ph]
    norm_num
  exact ⟨by simp, hc, keplerian_circular_reduces_to_cosine 1 1 0 0 0 [0] 0 (by simp) hc⟩

/-- Mean anomaly for a single time point equals the orbital phase: with
`P = 1`, `phi = π/2`, `t = [0]` the mean-anomaly array is `[π/2]`. -/
theorem meanAnoms_pi_half : meanAnoms 1 (Real.pi / 2) [0] = [Real.pi / 2] := by
  simp only [meanAnoms, List.headI, List.map]
  have h : (0 : ℝ) - (0 - 1 * (Real.pi / 2) / (2 * Real.pi)) = 1 / 4 := by
    field_simp
    ring
  rw [h]
  norm_num
  ring

/-- Initial series guess at `e = π`, `M = [π/2]`: `E0 = [π/2 + π]`. -/
theorem c4_initE : (initState Real.pi [Real.pi / 2]).E0 = [Real.pi / 2 + Real.pi] := by
  have h : 2 * (Real.pi / 2) = Real.pi := by ring
  simp only [initState, List.map]
  rw [h, Real.sin_pi, Real.sin_pi_div_two]
  norm_num

/-- Initial residual at `e = π`, `M = [π/2]`: `M1 = [2π]`. -/
theorem c4_initM1 : (initState Real.pi [Real.pi / 2]).M1 = [2 * Real.pi] := by
  show resid Real.pi ((initState Real.pi [Real.pi / 2]).E0) [Real.pi / 2] = _
  rw [c4_initE]
  simp only [resid, List.zipWith]
  rw [Real.sin_add_pi, Real.sin_pi_div_two]
  norm_num
  ring

/-- The initial residual `2π` exceeds the tolerance, so the loop is entered. -/
theorem c4_init_nd : (initState Real.pi [Real.pi / 2]).nd ≠ 0 := by
  show unconv ((initState Real.pi [Real.pi / 2]).M1) ≠ 0
  rw [c4_initM1]
  simp only [unconv, List.countP, List.countP.go]
  have h : criteria < |2 * Real.pi| := by
    rw [abs_of_pos (by positivity)]
    simp only [criteria]
    nlinarith [Real.pi_gt_three]
  simp [h]

/-- Closed form of the single Newton-Halley correction at `E = π/2 + π`,
`M1 = 2π`, `e = π`: the corrected eccentric anomaly is
`π/2 - π/(1 + 2π²)`. -/
theorem halley_val :
    halleyE Real.pi (Real.pi / 2 + Real.pi) (2 * Real.pi) =
      Real.pi / 2 - Real.pi / (1 + 2 * Real.pi ^ 2) := by
  simp only [halleyE]
  rw [Real.cos_add_pi, Real.sin_add_pi, Real.cos_pi_div_two, Real.sin_pi_div_two]
  have h1 : (0 : ℝ) < 1 + Real.pi ^ 2 := by positivity
  have h2 : (0 : ℝ) < 1 + 2 * Real.pi ^ 2 := by positivity
  have hd1 : (1 : ℝ) - Real.pi * -0 = 1 := by norm_num
  rw [hd1]
  field_simp
  ring

/-- The solver output at `e = π`, `M = [π/2]` after its single loop pass. -/
theorem c4_solveE :
    solveE Real.pi [Real.pi / 2] = [Real.pi / 2 - Real.pi / (1 + 2 * Real.pi ^ 2)] := by
  rw [solveE, keplerState_eq, if_neg c4_init_nd]
  show List.zipWith (fun E M1 => halleyE Real.pi E M1) ((initState Real.pi [Real.pi / 2]).E0)
    ((initState Real.pi [Real.pi / 2]).M1) = _
  rw [c4_initE, c4_initM1]
  simp only [List.zipWith]
  rw [halley_val]

/-- C4.  Counterexample to the claimed post-loop tolerance: with parameters
`P = 1`, `e = π`, `phi = π/2` and the single time `t = [0]` (mean anomaly
`π/2`), the loop runs its one pass and exits with a residual of about 3.26
against the original mean anomaly — far above the `1e-10` tolerance the
claim promises (the loop exits because `np.sum(cc is True)` is always 0 and
`M1` is recomputed against a reassigned `M0`, not because convergence was
reached). -/
theorem kepler_residual_exceeds_tolerance :
    criteria < |(kepResiduals Real.pi (meanAnoms 1 (Real.pi / 2) [0])).getD 0 0| := by
  rw [meanAnoms_pi_half, kepResiduals, c4_solveE]
  simp only [resid, List.zipWith, List.getD_cons_zero]
  rw [Real.sin_pi_div_two_sub]
  set d : ℝ := Real.pi / (1 + 2 * Real.pi ^ 2) with hd
  have hdpos : 0 < d := by positivity
  have hdlt : d < Real.pi / 2 := by
    rw [hd, div_lt_div_iff₀ (by positivity) (by norm_num)]
    nlinarith [Real.pi_gt_three]
  have hcos : 0 < Real.cos d := Real.cos_pos_of_mem_Ioo ⟨by linarith, hdlt⟩
  have hval : Real.pi / 2 - d - Real.pi * Real.cos d - Real.pi / 2 =
      -(d + Real.pi * Real.cos d) := by ring
  rw [hval, abs_neg, abs_of_pos (by positivity)]
  have hcrit : criteria < d := by
    rw [hd]
    simp only [criteria]
    rw [lt_div_iff₀ (by positivity)]
    nlinarith [Real.pi_gt_three, Real.pi_lt_d2]
  nlinarith [Real.pi_pos]

/-- `nd = 0` says exactly that every residual is within tolerance. -/
theorem unconv_eq_zero_iff (M1 : List ℝ) : unconv M1 = 0 ↔ ∀ x ∈ M1, |x| ≤ criteria := by
  simp [unconv, List.countP_eq_zero, not_lt]

/-- Bounding every element of a list bounds every `getD` access. -/
theorem abs_getD_le_of_all (l : List ℝ) (i : ℕ) (c : ℝ) (hc : 0 ≤ c)
    (h : ∀ x ∈ l, |x| ≤ c) : |l.getD i 0| ≤ c := by
  by_cases hi : i < l.length
  · refine h _ ?_
    rw [List.getD_eq_getElem _ _ hi]
    exact List.getElem_mem hi
  · rw [List.getD_eq_default _ _ (le_of_not_lt hi)]
    simpa using hc

/-- After a loop pass the residual array is identically zero, because the
source reassigns `M0 = E0 - e*np.sin(E0)` and then recomputes
`M1 = E0 - e*np.sin(E0) - M0`. -/
theorem stepBody_M1_zero (e : ℝ) (s : KSt) : ∀ x ∈ (stepBody e s).M1, x = 0 := by
  intro x hx
  simp only [stepBody, resid] at hx
  rw [List.zipWith_map_right, List.zipWith_same] at hx
  simp only [sub_self, List.mem_map] at hx
  obtain ⟨y, _, rfl⟩ := hx
  rfl

/-- On exit the final residual variable `M1` is always within the tolerance —
but when the loop was entered this is the residual against the reassigned
mean anomaly (identically zero), not the original one of step 2. -/
theorem kepler_final_residual_within_tolerance (e : ℝ) (M : List ℝ) (i : ℕ) :
    |(keplerState e M).M1.getD i 0| ≤ criteria := by
  have hc : (0 : ℝ) ≤ criteria := by norm_num [criteria]
  rw [keplerState_eq]
  split
  case isTrue h =>
    exact abs_getD_le_of_all _ _ _ hc ((unconv_eq_zero_iff _).mp h)
  case isFalse h =>
    refine abs_getD_le_of_all _ _ _ hc fun x hx => ?_
    rw [stepBody_M1_zero e _ x hx]
    simpa using hc

/-- C5.  For any parameters with `0 ≤ e < 1` and any non-empty time vector,
the eccentric-anomaly while loop terminates within fuel 2, the Halley
correction pass runs at most once, and whenever the initial state is
unconverged it runs exactly once — regardless of whether the `1e-10`
tolerance was actually met — because the recomputed unconverged count
`np.sum(convergence_criteria is True)` is always 0. -/
theorem kepler_loop_terminates_after_at_most_one_pass
    (P K e w ph sv : ℝ) (t : List ℝ) (_h0 : 0 ≤ e) (_h1 : e < 1) (_ht : t ≠ []) :
    ∃ s : KSt, runWhile e 2 (initState e (meanAnoms P ph t)) = some s ∧
      s.count ≤ 1 ∧ ((initState e (meanAnoms P ph t)).nd ≠ 0 → s.count = 1) := by
  refine ⟨_, runWhile_two e (initState e (meanAnoms P ph t)), ?_, ?_⟩
  · split
    · show (initState e (meanAnoms P ph t)).count ≤ 1
      rw [show (initState e (meanAnoms P ph t)).count = 0 from rfl]
      norm_num
    · rw [stepBody_count, show (initState e (meanAnoms P ph t)).count = 0 from rfl]
  · intro hne
    rw [if_neg hne, stepBody_count, show (initState e (meanAnoms P ph t)).count = 0 from rfl]

/-- Witness for C5 at `e = 0`, `t = [0]`. -/
theorem kepler_loop_terminates_witness :
    (0 : ℝ) ≤ 0 ∧ (0 : ℝ) < 1 ∧ ([0] : List ℝ) ≠ [] ∧
    (∃ s : KSt, runWhile 0 2 (initState 0 (meanAnoms 1 0 [0])) = some s ∧
      s.count ≤ 1 ∧ ((initState 0 (meanAnoms 1 0 [0])).nd ≠ 0 → s.count = 1)) :=
  ⟨le_refl 0, by norm_num, by simp,
    kepler_loop_terminates_after_at_most_one_pass 1 1 0 0 0 0 [0] (le_refl 0) (by norm_num)
      (by simp)⟩
